import Mathlib

/-!
Shallow embedding of the thread-publication core of the obsidian-wordcloud
plugin (src/bluesky.ts and src/views/BlueskyTab.ts), together with proofs of
the specification's claims about it.

The remote service (authentication, facet detection, record submission) is an
external collaborator; it is modelled as an environment of response functions.
Each operation returns, besides its `Except` outcome, the ordered trace of
records it actually submitted to the remote service, so that "exactly N
submissions occurred" and "no submission after the failing one" are statable.
-/

namespace Wordcloud

/-- A published-post reference `{uri, cid}` returned by the remote service. -/
structure Ref where
  uri : String
  cid : String
deriving DecidableEq, Repr

/-- The reply link attached to non-root thread segments:
`{root, parent}` as built in `BlueskyBot.createThread`. -/
structure ReplyRef where
  root : Ref
  parent : Ref
deriving DecidableEq, Repr

/-- A record submitted to the remote service: the segment text, the optional
reply link, and the detected facets (opaque tokens here). Mirrors the
`ThreadPost` shape plus the `facets` field passed to `agent.post`. -/
structure PostRecord where
  text : String
  reply : Option ReplyRef
  facets : List Nat
deriving DecidableEq, Repr

/-- Responses of the remote collaborator during `createThread`: `detect i` is
the outcome of facet detection for segment `i`, `submit i` the outcome of the
`i`-th record submission. -/
structure Env where
  detect : Nat → Except String (List Nat)
  submit : Nat → Except String Ref

/-- The environment in which every remote call succeeds, detection returning
`f i` and submission returning `r i` for segment `i`. -/
def Env.allOk (f : Nat → List Nat) (r : Nat → Ref) : Env :=
  ⟨fun i => Except.ok (f i), fun i => Except.ok (r i)⟩

/-- The loop body of `BlueskyBot.createThread` (src/bluesky.ts lines 67-90):
for each segment, run facet detection, build the record (with a reply link
exactly when a previous post exists, pointing at the root and the previous
reference), submit it, and thread the returned reference through.
Returns the trace of submitted records and the outcome; any detection or
submission error propagates immediately (there is no try/catch in the loop). -/
def createThreadGo (env : Env) : List String → Nat → Option Ref → Option Ref →
    List PostRecord × Except String Unit
  | [], _, _, _ => ([], Except.ok ())
  | text :: rest, i, rootPost, lastPost =>
    match env.detect i with
    | Except.error e => ([], Except.error e)
    | Except.ok facets =>
      let reply : Option ReplyRef :=
        match lastPost with
        | some lp => some ⟨rootPost.getD ⟨"", ""⟩, lp⟩
        | none => none
      match env.submit i with
      | Except.error e => ([⟨text, reply, facets⟩], Except.error e)
      | Except.ok ref =>
        let next := createThreadGo env rest (i + 1) (some (rootPost.getD ref)) (some ref)
        (⟨text, reply, facets⟩ :: next.1, next.2)

/-- `BlueskyBot.createThread` (src/bluesky.ts lines 61-92): an empty list
returns at once (successfully, submitting nothing); otherwise the sequential
publication loop runs starting with no root and no previous post. -/
def createThread (env : Env) (posts : List String) :
    List PostRecord × Except String Unit :=
  if posts.length = 0 then ([], Except.ok ())
  else createThreadGo env posts 0 none none

/-- `BlueskyBot.createPost` (src/bluesky.ts lines 38-59): throws when not
logged in (before any submission); otherwise submits one record carrying the
text and no reply link, propagating a submission error after the failed call. -/
def createPost (submitRes : Except String Ref) (loggedIn : Bool) (text : String) :
    List PostRecord × Except String Unit :=
  if loggedIn = false then ([], Except.error "Not logged in")
  else
    match submitRes with
    | Except.ok _ => ([⟨text, none, []⟩], Except.ok ())
    | Except.error e => ([⟨text, none, []⟩], Except.error e)

/-- The plugin settings relevant to login (src/main.ts `BlueskyPluginSettings`). -/
structure Settings where
  blueskyIdentifier : String
  blueskyAppPassword : String
deriving DecidableEq, Repr

/-- Observable outcome of `BlueskyBot.login`: the user-visible notices emitted,
the number of network authentication calls issued, and the result. -/
structure LoginOutcome where
  notices : List String
  networkCalls : Nat
  result : Except String Unit
deriving Repr

/-- The notice text shown on missing credentials (src/bluesky.ts line 25). -/
def missingCredsNotice : String :=
  "Not logged in. Go to the Bluesky plugin settings to login."

/-- The error message thrown on missing credentials (src/bluesky.ts line 26). -/
def missingCredsError : String :=
  "Missing Bluesky credentials - please configure them in settings"

/-- `BlueskyBot.login` (src/bluesky.ts lines 21-36): when the identifier or
the app password is the empty string (JS falsiness for strings), a notice is
emitted and the missing-credentials error is thrown with no network call;
otherwise `agent.login` is called once and its outcome (`auth`) propagates. -/
def login (auth : Except String Unit) (s : Settings) : LoginOutcome :=
  if s.blueskyIdentifier = "" ∨ s.blueskyAppPassword = "" then
    ⟨[missingCredsNotice], 0, Except.error missingCredsError⟩
  else
    match auth with
    | Except.ok () => ⟨[], 1, Except.ok ()⟩
    | Except.error e => ⟨[], 1, Except.error e⟩

/-- The character cap of the composer UI (src/views/BlueskyTab.ts line 11). -/
def MAX_CHARS : Nat := 300

/-- In-memory state of the composer tab: the segment list and the
posting-in-progress flag (src/views/BlueskyTab.ts lines 9-10). -/
structure TabState where
  posts : List String
  isPosting : Bool
deriving DecidableEq, Repr

/-- The initial segment list: one empty segment (src/views/BlueskyTab.ts line 9). -/
def initialPosts : List String := [""]

/-- `BlueskyTab.addPost` effect on the segment list: append one empty segment
(src/views/BlueskyTab.ts lines 58-60). -/
def addPost (posts : List String) : List String := posts ++ [""]

/-- `BlueskyTab.removePost` effect on the segment list (src/views/BlueskyTab.ts
lines 93-101): a no-op when exactly one segment remains, otherwise
`splice(index, 1)` (which removes nothing when the index is out of range). -/
def removePost (posts : List String) (index : Nat) : List String :=
  if posts.length = 1 then posts else posts.eraseIdx index

/-- Truncation to the first `n` characters, modelling `value.slice(0, n)`. -/
def truncate (s : String) (n : Nat) : String := String.mk (s.data.take n)

/-- `BlueskyTab.handlePostChange` effect on the segment list
(src/views/BlueskyTab.ts lines 31-38): store the input truncated to
`MAX_CHARS` characters at the given index. -/
def handlePostChange (posts : List String) (index : Nat) (value : String) :
    List String :=
  posts.set index (truncate value MAX_CHARS)

/-- JavaScript's `String.prototype.trim`: drop whitespace from both ends. -/
def jsTrim (s : String) : String :=
  String.mk (((s.data.dropWhile Char.isWhitespace).reverse.dropWhile
    Char.isWhitespace).reverse)

/-- The caller-side filter of `BlueskyTab.publishContent`
(src/views/BlueskyTab.ts line 106): keep the segments whose trimmed text is
non-empty (a non-empty string is truthy in JavaScript). -/
def validPosts (posts : List String) : List String :=
  posts.filter (fun p => jsTrim p ≠ "")

/-- Observable outcome of `BlueskyTab.publishContent`: the final tab state,
the records submitted to the remote service, and the outcome of the guarded
try-block (`none` when a guard returned before publishing was attempted). -/
structure PublishOut where
  state : TabState
  submissions : List PostRecord
  published : Option (Except String Unit)
deriving Repr

/-- `BlueskyTab.publishContent` (src/views/BlueskyTab.ts lines 103-127):
return unchanged while a post is in flight or when no segment survives the
blank filter; otherwise log in, publish the single segment via `createPost`
or the thread via `createThread`, reset the segment list to one empty segment
on success, and leave it unchanged on failure (all errors are caught and only
logged). `isPosting` is reset in the `finally` block on every path taken. -/
def publishContent (env : Env) (auth : Except String Unit) (settings : Settings)
    (st : TabState) : PublishOut :=
  if st.isPosting = true then ⟨st, [], none⟩
  else if (validPosts st.posts).isEmpty then ⟨st, [], none⟩
  else
    match (login auth settings).result with
    | Except.error e => ⟨⟨st.posts, false⟩, [], some (Except.error e)⟩
    | Except.ok () =>
      let vp := validPosts st.posts
      let pr :=
        if vp.length = 1 then createPost (env.submit 0) true (vp.headD "")
        else createThread env vp
      match pr.2 with
      | Except.ok () => ⟨⟨[""], false⟩, pr.1, some (Except.ok ())⟩
      | Except.error e => ⟨⟨st.posts, false⟩, pr.1, some (Except.error e)⟩

/-- Segment lists reachable by the tab's operations from its initial state. -/
inductive ReachablePosts : List String → Prop
  | init : ReachablePosts initialPosts
  | add {p : List String} : ReachablePosts p → ReachablePosts (addPost p)
  | remove {p : List String} (i : Nat) :
      ReachablePosts p → ReachablePosts (removePost p i)
  | change {p : List String} (i : Nat) (v : String) :
      ReachablePosts p → ReachablePosts (handlePostChange p i v)
  | publish {p : List String} (env : Env) (auth : Except String Unit)
      (settings : Settings) (b : Bool) : ReachablePosts p →
      ReachablePosts (publishContent env auth settings ⟨p, b⟩).state.posts

/-- Closed form of the records produced by a successful run of the thread loop
from segment index `i` on, when a root reference `root` and the previous
reference `lp` already exist, detection returns `f j` and submission `r j`. -/
def tailRecordsFrom (f : Nat → List Nat) (r : Nat → Ref) (root : Ref) :
    Ref → Nat → List String → List PostRecord
  | _, _, [] => []
  | lp, i, t :: rest => ⟨t, some ⟨root, lp⟩, f i⟩ :: tailRecordsFrom f r root (r i) (i + 1) rest

lemma tailRecordsFrom_map_text (f : Nat → List Nat) (r : Nat → Ref) (root : Ref) :
    ∀ (posts : List String) (lp : Ref) (i : Nat),
      (tailRecordsFrom f r root lp i posts).map PostRecord.text = posts
  | [], _, _ => rfl
  | _ :: rest, lp, i => by
    simp [tailRecordsFrom, tailRecordsFrom_map_text f r root rest (r i) (i + 1)]

lemma tailRecordsFrom_getElem? (f : Nat → List Nat) (r : Nat → Ref) (root : Ref) :
    ∀ (posts : List String) (i j : Nat), 1 ≤ i →
      (tailRecordsFrom f r root (r (i - 1)) i posts)[j]? =
        (posts[j]?).map (fun t => ⟨t, some ⟨root, r (i + j - 1)⟩, f (i + j)⟩)
  | [], _, _, _ => by simp [tailRecordsFrom]
  | t :: rest, i, 0, _ => by simp [tailRecordsFrom]
  | t :: rest, i, j + 1, hi => by
    have h := tailRecordsFrom_getElem? f r root rest (i + 1) j (by omega)
    have hi1 : i + 1 - 1 = i := by omega
    rw [hi1] at h
    have h2 : i + 1 + j - 1 = i + (j + 1) - 1 := by omega
    have h3 : i + 1 + j = i + (j + 1) := by omega
    simp only [tailRecordsFrom, List.getElem?_cons_succ, h, h2, h3]

lemma createThreadGo_ok (env : Env) (f : Nat → List Nat) (r : Nat → Ref) :
    ∀ (posts : List String) (i : Nat) (root lp : Ref),
      (∀ j, j < posts.length →
        env.detect (i + j) = Except.ok (f (i + j)) ∧
        env.submit (i + j) = Except.ok (r (i + j))) →
      createThreadGo env posts i (some root) (some lp) =
        (tailRecordsFrom f r root lp i posts, Except.ok ())
  | [], _, _, _, _ => rfl
  | t :: rest, i, root, lp, h => by
    obtain ⟨hdet, hsub⟩ := h 0 (by simp)
    rw [Nat.add_zero] at hdet hsub
    have ih := createThreadGo_ok env f r rest (i + 1) root (r i) (fun j hj => by
      have := h (j + 1) (by simpa using Nat.succ_lt_succ hj)
      rwa [show i + (j + 1) = i + 1 + j by omega] at this)
    simp only [createThreadGo, hdet, hsub, Option.getD, ih, tailRecordsFrom]

lemma createThread_ok (env : Env) (f : Nat → List Nat) (r : Nat → Ref)
    (t : String) (rest : List String)
    (hok : ∀ j, j < (t :: rest).length →
      env.detect j = Except.ok (f j) ∧ env.submit j = Except.ok (r j)) :
    createThread env (t :: rest) =
      (⟨t, none, f 0⟩ :: tailRecordsFrom f r (r 0) (r 0) 1 rest, Except.ok ()) := by
  obtain ⟨hdet, hsub⟩ := hok 0 (by simp)
  have ih := createThreadGo_ok env f r rest 1 (r 0) (r 0) (fun j hj => by
    have := hok (j + 1) (by simpa using Nat.succ_lt_succ hj)
    rwa [Nat.add_comm 1 j])
  simp only [createThread, List.length_cons, Nat.succ_ne_zero, if_false,
    createThreadGo, hdet, hsub, Option.getD, ih]

/-- C1. On a segment sequence of length N > 1 whose remote calls all succeed
(detection returning `f j`, submission returning the reference `r j` for
segment `j`), `createThread` succeeds and issues exactly N submissions in
segment order; the first carries no reply link, and every later submission
`i` carries `reply.root = r 0` (the reference returned by submission 0) and
`reply.parent = r (i-1)` (the reference returned by submission `i-1`). -/
theorem createThread_chain (env : Env) (posts : List String)
    (f : Nat → List Nat) (r : Nat → Ref) (hN : 1 < posts.length)
    (hok : ∀ j, j < posts.length →
      env.detect j = Except.ok (f j) ∧ env.submit j = Except.ok (r j)) :
    (createThread env posts).2 = Except.ok () ∧
    (createThread env posts).1.map PostRecord.text = posts ∧
    (createThread env posts).1.length = posts.length ∧
    ((createThread env posts).1[0]?).map PostRecord.reply = some none ∧
    ∀ i, 0 < i → i < posts.length →
      ((createThread env posts).1[i]?).map PostRecord.reply =
        some (some ⟨r 0, r (i - 1)⟩) := by
  match posts, hN with
  | t :: rest, hN =>
    rw [createThread_ok env f r t rest hok]
    refine ⟨rfl, ?_, ?_, by simp, ?_⟩
    · simp [tailRecordsFrom_map_text]
    · have := congrArg List.length
        (tailRecordsFrom_map_text f r (r 0) rest (r 0) 1)
      simpa using this
    · intro i hi hlen
      match i, hi with
      | i' + 1, _ =>
        have hr : (r 0) = r (1 - 1) := rfl
        rw [List.getElem?_cons_succ, hr,
          tailRecordsFrom_getElem? f r (r 0) rest 1 i' (le_refl 1)]
        have hi' : i' < rest.length := by
          simpa using Nat.lt_of_succ_lt_succ hlen
        rw [List.getElem?_eq_getElem hi']
        simp

lemma createThreadGo_submitFail (env : Env) (e : String) :
    ∀ (k : Nat) (posts : List String) (i : Nat) (root lp : Option Ref),
      k < posts.length →
      (∀ j, j ≤ k → ∃ fs, env.detect (i + j) = Except.ok fs) →
      (∀ j, j < k → ∃ ref, env.submit (i + j) = Except.ok ref) →
      env.submit (i + k) = Except.error e →
      (createThreadGo env posts i root lp).1.map PostRecord.text =
        posts.take (k + 1) ∧
      (createThreadGo env posts i root lp).2 = Except.error e := by
  intro k
  induction k with
  | zero =>
    intro posts i root lp hk hdet _ hfail
    match posts, hk with
    | t :: rest, _ =>
      obtain ⟨fs, hfs⟩ := hdet 0 (le_refl 0)
      rw [Nat.add_zero] at hfs hfail
      simp [createThreadGo, hfs, hfail]
  | succ k ih =>
    intro posts i root lp hk hdet hsub hfail
    match posts, hk with
    | t :: rest, hk =>
      obtain ⟨fs, hfs⟩ := hdet 0 (Nat.zero_le _)
      obtain ⟨ref, href⟩ := hsub 0 (Nat.succ_pos _)
      rw [Nat.add_zero] at hfs href
      have ihr := ih rest (i + 1) (some (root.getD ref)) (some ref)
        (by simpa using Nat.lt_of_succ_lt_succ hk)
        (fun j hj => by
          have := hdet (j + 1) (Nat.succ_le_succ hj)
          rwa [show i + (j + 1) = i + 1 + j by omega] at this)
        (fun j hj => by
          have := hsub (j + 1) (Nat.succ_lt_succ hj)
          rwa [show i + (j + 1) = i + 1 + j by omega] at this)
        (by rwa [show i + 1 + k = i + (k + 1) by omega])
      simp [createThreadGo, hfs, href, ihr.1, ihr.2]

lemma createThreadGo_detectFail (env : Env) (e : String) :
    ∀ (k : Nat) (posts : List String) (i : Nat) (root lp : Option Ref),
      k < posts.length →
      (∀ j, j < k → ∃ fs, env.detect (i + j) = Except.ok fs) →
      (∀ j, j < k → ∃ ref, env.submit (i + j) = Except.ok ref) →
      env.detect (i + k) = Except.error e →
      (createThreadGo env posts i root lp).1.map PostRecord.text = posts.take k ∧
      (createThreadGo env posts i root lp).2 = Except.error e := by
  intro k
  induction k with
  | zero =>
    intro posts i root lp hk _ _ hfail
    match posts, hk with
    | t :: rest, _ =>
      rw [Nat.add_zero] at hfail
      simp [createThreadGo, hfail]
  | succ k ih =>
    intro posts i root lp hk hdet hsub hfail
    match posts, hk with
    | t :: rest, hk =>
      obtain ⟨fs, hfs⟩ := hdet 0 (Nat.succ_pos _)
      obtain ⟨ref, href⟩ := hsub 0 (Nat.succ_pos _)
      rw [Nat.add_zero] at hfs href
      have ihr := ih rest (i + 1) (some (root.getD ref)) (some ref)
        (by simpa using Nat.lt_of_succ_lt_succ hk)
        (fun j hj => by
          have := hdet (j + 1) (Nat.succ_lt_succ hj)
          rwa [show i + (j + 1) = i + 1 + j by omega] at this)
        (fun j hj => by
          have := hsub (j + 1) (Nat.succ_lt_succ hj)
          rwa [show i + (j + 1) = i + 1 + j by omega] at this)
        (by rwa [show i + 1 + k = i + (k + 1) by omega])
      simp [createThreadGo, hfs, href, ihr.1, ihr.2]

/-- C2. If the remote submission of segment `k` fails during `createThread`
(every earlier detection/submission having succeeded), then the submission
trace is exactly the records for segments `0..k` — the `k` earlier
submissions, already issued in segment order, followed by the failing attempt
at index `k` — no submission at index `k+1` or later is ever issued, and the
operation fails immediately with the submission error. The trace is
append-only: the earlier records remain in it, i.e. nothing is rolled back. -/
theorem createThread_stops_at_failure (env : Env) (posts : List String)
    (k : Nat) (e : String) (hk : k < posts.length)
    (hdet : ∀ j, j ≤ k → ∃ fs, env.detect j = Except.ok fs)
    (hsub : ∀ j, j < k → ∃ ref, env.submit j = Except.ok ref)
    (hfail : env.submit k = Except.error e) :
    (createThread env posts).1.map PostRecord.text = posts.take (k + 1) ∧
    (createThread env posts).2 = Except.error e := by
  have h0 := createThreadGo_submitFail env e k posts 0 none none hk
    (fun j hj => by simpa using hdet j hj)
    (fun j hj => by simpa using hsub j hj)
    (by simpa using hfail)
  have hne : ¬ posts.length = 0 := by omega
  simpa [createThread, hne] using h0

/-- Witness for C2: with three segments and a submission collaborator that
succeeds on call 0 and fails on call 1 with a network error, only the first
two records are ever submitted and the run fails with that error. -/
def envFailAt1 : Env :=
  ⟨fun _ => Except.ok [],
   fun j => if j = 0 then Except.ok ⟨"u0", "c0"⟩ else Except.error "network"⟩

theorem createThread_stops_at_failure_witness :
    (createThread envFailAt1 ["a", "b", "c"]).1.map PostRecord.text = ["a", "b"] ∧
    (createThread envFailAt1 ["a", "b", "c"]).2 = Except.error "network" := by
  have h := createThread_stops_at_failure envFailAt1 ["a", "b", "c"] 1 "network"
    (by decide)
    (fun j _ => ⟨[], rfl⟩)
    (fun j hj => by interval_cases j; exact ⟨⟨"u0", "c0"⟩, rfl⟩)
    rfl
  exact h

/-- Counterexample to C3: a facet-detection failure aborts publication.
`rt.detectFacets` is not wrapped in any try/catch in `createThread`
(src/bluesky.ts line 69), so when detection fails for the first segment,
nothing at all is submitted — the segment is not published with zero facets
and the remaining segments are not processed; the detection error escapes. -/
def envDetectDown : Env :=
  ⟨fun _ => Except.error "facets down", fun _ => Except.ok ⟨"u", "c"⟩⟩

theorem createThread_detectFail_counterexample :
    (createThread envDetectDown ["hello", "world"]).1 = [] ∧
    (createThread envDetectDown ["hello", "world"]).2 =
      Except.error "facets down" := by
  constructor <;> rfl

/-- C3 as amended: a facet-detection failure at segment `k` aborts
publication — the segments before `k` have been submitted, segment `k` itself
is never submitted (with or without facets), no later segment is processed,
and the detection error propagates to the caller. -/
theorem createThread_detectFail_aborts (env : Env) (posts : List String)
    (k : Nat) (e : String) (hk : k < posts.length)
    (hdet : ∀ j, j < k → ∃ fs, env.detect j = Except.ok fs)
    (hsub : ∀ j, j < k → ∃ ref, env.submit j = Except.ok ref)
    (hfail : env.detect k = Except.error e) :
    (createThread env posts).1.map PostRecord.text = posts.take k ∧
    (createThread env posts).2 = Except.error e := by
  have h0 := createThreadGo_detectFail env e k posts 0 none none hk
    (fun j hj => by simpa using hdet j hj)
    (fun j hj => by simpa using hsub j hj)
    (by simpa using hfail)
  have hne : ¬ posts.length = 0 := by omega
  simpa [createThread, hne] using h0

theorem createThread_detectFail_aborts_witness :
    (createThread envDetectDown ["hello", "world"]).1.map PostRecord.text = [] ∧
    (createThread envDetectDown ["hello", "world"]).2 =
      Except.error "facets down" := by
  have h := createThread_detectFail_aborts envDetectDown ["hello", "world"]
    0 "facets down" (by decide)
    (fun j hj => absurd hj (Nat.not_lt_zero j))
    (fun j hj => absurd hj (Nat.not_lt_zero j))
    rfl
  exact h

/-- A collaborator whose record submissions always fail with a network error. -/
def envFailAt0 : Env :=
  ⟨fun _ => Except.ok [], fun _ => Except.error "network"⟩

/-- Counterexample to C6: the failure surfaced by `createThread` is the raw
collaborator error and reports nothing about how many segments succeeded.
Two runs over the same three segments — one failing at the very first
submission (0 successes), one failing at the second (1 success) — surface the
identical failure value, so the caller cannot read a success count off it. -/
theorem createThread_failure_report_counterexample :
    (createThread envFailAt0 ["a", "b", "c"]).2 =
      (createThread envFailAt1 ["a", "b", "c"]).2 ∧
    (createThread envFailAt0 ["a", "b", "c"]).1.length = 1 ∧
    (createThread envFailAt1 ["a", "b", "c"]).1.length = 2 := by
  exact ⟨rfl, rfl, rfl⟩

/-- C6 as amended: when submission `k` fails, the failure surfaced to the
caller is exactly the collaborator's error, unchanged and carrying no count
of successful segments; the number of segments that succeeded before the
failure (`k`) is observable only in the submission trace, whose length is
`k + 1` (the `k` successful records plus the failing attempt). -/
theorem createThread_failure_surfaces_raw_error (env : Env)
    (posts : List String) (k : Nat) (e : String) (hk : k < posts.length)
    (hdet : ∀ j, j ≤ k → ∃ fs, env.detect j = Except.ok fs)
    (hsub : ∀ j, j < k → ∃ ref, env.submit j = Except.ok ref)
    (hfail : env.submit k = Except.error e) :
    (createThread env posts).2 = Except.error e ∧
    (createThread env posts).1.length = k + 1 := by
  have h0 := createThreadGo_submitFail env e k posts 0 none none hk
    (fun j hj => by simpa using hdet j hj)
    (fun j hj => by simpa using hsub j hj)
    (by simpa using hfail)
  have hne : ¬ posts.length = 0 := by omega
  constructor
  · simpa [createThread, hne] using h0.2
  · have hlen := congrArg List.length h0.1
    rw [List.length_map, List.length_take] at hlen
    have : min (k + 1) posts.length = k + 1 := by omega
    rw [this] at hlen
    simpa [createThread, hne] using hlen

theorem createThread_failure_surfaces_raw_error_witness :
    (createThread envFailAt1 ["a", "b", "c"]).2 = Except.error "network" ∧
    (createThread envFailAt1 ["a", "b", "c"]).1.length = 2 := by
  have h := createThread_failure_surfaces_raw_error envFailAt1 ["a", "b", "c"]
    1 "network" (by decide)
    (fun j _ => ⟨[], rfl⟩)
    (fun j hj => by interval_cases j; exact ⟨⟨"u0", "c0"⟩, rfl⟩)
    rfl
  exact h

/-- Distinct references for the witness runs. -/
def wRefs : Nat → Ref
  | 0 => ⟨"u0", "c0"⟩
  | 1 => ⟨"u1", "c1"⟩
  | _ => ⟨"ux", "cx"⟩

theorem createThread_chain_witness :
    ((createThread (Env.allOk (fun _ => []) wRefs) ["a", "b", "c"]).1[2]?).map
      PostRecord.reply = some (some ⟨wRefs 0, wRefs 1⟩) ∧
    (createThread (Env.allOk (fun _ => []) wRefs) ["a", "b", "c"]).2 =
      Except.ok () := by
  have h := createThread_chain (Env.allOk (fun _ => []) wRefs) ["a", "b", "c"]
    (fun _ => []) wRefs (by decide) (fun j _ => ⟨rfl, rfl⟩)
  exact ⟨h.2.2.2.2 2 (by decide) (by decide), h.1⟩

/-- C4. When the identifier or the app password is empty, `login` issues no
network authentication call (`networkCalls = 0`, whatever the remote would
have answered), emits the user-visible missing-credentials notice — the
`new Notice(...)` on src/bluesky.ts line 25, executed before the `throw` on
line 26 — and fails with the missing-credentials error. -/
theorem login_missing_credentials (auth : Except String Unit) (s : Settings)
    (h : s.blueskyIdentifier = "" ∨ s.blueskyAppPassword = "") :
    login auth s = ⟨[missingCredsNotice], 0, Except.error missingCredsError⟩ := by
  simp [login, h]

theorem login_missing_credentials_witness :
    login (Except.ok ()) ⟨"", "hunter2"⟩ =
      ⟨[missingCredsNotice], 0, Except.error missingCredsError⟩ :=
  login_missing_credentials (Except.ok ()) ⟨"", "hunter2"⟩ (Or.inl rfl)

/-- A collaborator in which every call succeeds, with constant responses. -/
def envAllOkEmpty : Env := Env.allOk (fun _ => []) (fun _ => ⟨"u", "c"⟩)

/-- Counterexample to C5: invoked directly with zero segments, `createThread`
does not fail — the guard `if (!posts.length) return` (src/bluesky.ts line 62)
returns successfully. No submission is issued, but the outcome is `ok`,
not a failure. -/
theorem createThread_empty_counterexample :
    (createThread envAllOkEmpty []).1 = [] ∧
    (createThread envAllOkEmpty []).2 = Except.ok () :=
  ⟨rfl, rfl⟩

/-- C5 as amended: with zero segments `createThread` returns immediately,
issuing no submission, but it returns successfully rather than failing; and
the caller-side guard holds — when no segment survives the blank filter,
`publishContent` returns with the state unchanged, no submission issued and
publishing never attempted. -/
theorem createThread_empty_amended :
    (∀ env, createThread env [] = ([], Except.ok ())) ∧
    (∀ env auth settings (p : List String) (b : Bool), validPosts p = [] →
      publishContent env auth settings ⟨p, b⟩ = ⟨⟨p, b⟩, [], none⟩) := by
  constructor
  · intro env
    rfl
  · intro env auth settings p b h
    cases b <;> simp [publishContent, h]

theorem createThread_empty_amended_witness :
    createThread envAllOkEmpty [] = ([], Except.ok ()) ∧
    publishContent envAllOkEmpty (Except.ok ()) ⟨"id", "pw"⟩ ⟨["", " "], false⟩ =
      ⟨⟨["", " "], false⟩, [], none⟩ :=
  ⟨createThread_empty_amended.1 envAllOkEmpty,
   createThread_empty_amended.2 envAllOkEmpty (Except.ok ()) ⟨"id", "pw"⟩
     ["", " "] false rfl⟩

/-- A 301-character segment, one character over the platform cap. -/
def longText : String := String.mk (List.replicate 301 'a')

set_option maxRecDepth 2000 in
/-- Counterexample to C7: the publishing core neither truncates nor rejects
oversized segments. `createPost` and `createThread` perform no length check
(src/bluesky.ts lines 38-59 and 67-84), so a 301-character segment handed to
the core directly — bypassing the UI — is submitted verbatim. -/
theorem createThread_oversize_counterexample :
    (createThread envAllOkEmpty [longText]).1.map PostRecord.text = [longText] ∧
    (createThread envAllOkEmpty [longText]).2 = Except.ok () ∧
    300 < longText.length := by
  refine ⟨rfl, rfl, by decide⟩

lemma createThread_allOk_texts (f : Nat → List Nat) (r : Nat → Ref) :
    ∀ posts : List String,
      (createThread (Env.allOk f r) posts).1.map PostRecord.text = posts
  | [] => rfl
  | t :: rest => by
    rw [createThread_ok (Env.allOk f r) f r t rest (fun j _ => ⟨rfl, rfl⟩)]
    simp [tailRecordsFrom_map_text]

lemma truncate_length_le (s : String) (n : Nat) : (truncate s n).length ≤ n := by
  simp only [truncate, String.length, List.length_take]
  exact Nat.min_le_left _ _

/-- C7 as amended: the core enforces no length bound — `createThread` and
`createPost` submit every segment's text verbatim whatever its length (no
truncation, no rejection); the 300-character cap is enforced only in the UI
layer, whose input handler stores at most `MAX_CHARS` characters per segment. -/
theorem core_no_length_enforcement :
    (∀ (f : Nat → List Nat) (r : Nat → Ref) (posts : List String),
      (createThread (Env.allOk f r) posts).1.map PostRecord.text = posts) ∧
    (∀ (sub : Except String Ref) (t : String),
      (createPost sub true t).1.map PostRecord.text = [t]) ∧
    (∀ (posts : List String) (i : Nat) (v : String),
      ((handlePostChange posts i v)[i]?).all
        (fun s => decide (s.length ≤ MAX_CHARS)) = true) := by
  refine ⟨createThread_allOk_texts, ?_, ?_⟩
  · intro sub t
    cases sub <;> simp [createPost]
  · intro posts i v
    by_cases h : i < posts.length
    · rw [handlePostChange, List.getElem?_set_self]
      · simp [truncate_length_le]
      · simpa [List.length_set] using h
    · rw [handlePostChange, List.getElem?_eq_none]
      · rfl
      · simpa [List.length_set] using Nat.le_of_not_lt h

/-- C8. When exactly one segment survives the blank filter, no post is in
flight, the credentials are present, and the remote calls succeed,
`publishContent` publishes through `createPost`: exactly one record is
submitted, carrying the segment's text and no reply metadata (and no facets —
`createPost` sends only `{text, createdAt}`), and publishing succeeds. -/
theorem publishContent_single_segment (env : Env) (auth : Except String Unit)
    (settings : Settings) (st : TabState) (t : String) (ref : Ref)
    (hp : st.isPosting = false)
    (hvp : validPosts st.posts = [t])
    (hid : settings.blueskyIdentifier ≠ "")
    (hpw : settings.blueskyAppPassword ≠ "")
    (hauth : auth = Except.ok ())
    (hsub : env.submit 0 = Except.ok ref) :
    (publishContent env auth settings st).submissions = [⟨t, none, []⟩] ∧
    (publishContent env auth settings st).published = some (Except.ok ()) := by
  subst hauth
  have hlog : (login (Except.ok ()) settings).result = Except.ok () := by
    simp [login, hid, hpw]
  constructor <;>
    simp [publishContent, hp, hvp, hlog, createPost, hsub]

theorem publishContent_single_segment_witness :
    (publishContent envAllOkEmpty (Except.ok ()) ⟨"id", "pw"⟩
      ⟨["Hello world"], false⟩).submissions = [⟨"Hello world", none, []⟩] ∧
    (publishContent envAllOkEmpty (Except.ok ()) ⟨"id", "pw"⟩
      ⟨["Hello world"], false⟩).published = some (Except.ok ()) := by
  have h := publishContent_single_segment envAllOkEmpty (Except.ok ())
    ⟨"id", "pw"⟩ ⟨["Hello world"], false⟩ "Hello world" ⟨"u", "c"⟩
    rfl rfl (by simp) (by simp) rfl rfl
  exact h

lemma createThreadGo_texts_front (env : Env) :
    ∀ (posts : List String) (i : Nat) (root lp : Option Ref),
      ((createThreadGo env posts i root lp).1.map PostRecord.text) <+: posts
  | [], _, _, _ => List.nil_prefix
  | t :: rest, i, root, lp => by
    cases hdet : env.detect i with
    | error e => simp [createThreadGo, hdet]
    | ok fs =>
      cases hsub : env.submit i with
      | error e => exact ⟨rest, by simp [createThreadGo, hdet, hsub]⟩
      | ok ref =>
        obtain ⟨u, hu⟩ := createThreadGo_texts_front env rest (i + 1)
          (some (root.getD ref)) (some ref)
        exact ⟨u, by simp [createThreadGo, hdet, hsub, hu]⟩

lemma createThread_texts_front (env : Env) (posts : List String) :
    ((createThread env posts).1.map PostRecord.text) <+: posts := by
  by_cases h : posts.length = 0
  · simp [createThread, h]
  · simpa [createThread, h] using createThreadGo_texts_front env posts 0 none none

/-- C9. The UI caller keeps exactly the segments whose trimmed text is
non-empty, preserving their relative order (the filtered list is a sublist of
the edited list, hence possibly shorter), and every record `publishContent`
submits has its text drawn from that filtered list (the submitted texts form
a prefix of it) — blank segments are dropped silently and never submitted. -/
theorem publishContent_filters_blanks :
    (∀ posts : List String, (validPosts posts).Sublist posts) ∧
    (∀ (posts : List String) (s : String), s ∈ validPosts posts → jsTrim s ≠ "") ∧
    (∀ (posts : List String) (s : String),
      s ∈ posts → jsTrim s ≠ "" → s ∈ validPosts posts) ∧
    (∀ posts : List String, (validPosts posts).length ≤ posts.length) ∧
    (∀ (env : Env) (auth : Except String Unit) (settings : Settings)
      (st : TabState),
      ((publishContent env auth settings st).submissions.map PostRecord.text) <+:
        validPosts st.posts) := by
  refine ⟨fun posts => List.filter_sublist _, ?_, ?_,
    fun posts => List.length_filter_le _ _, ?_⟩
  · intro posts s hs
    have := List.mem_filter.mp hs
    simpa using this.2
  · intro posts s hs ht
    exact List.mem_filter.mpr ⟨hs, by simpa using ht⟩
  · intro env auth settings st
    cases hb : st.isPosting with
    | true => simp [publishContent, hb]
    | false =>
      cases hv : (validPosts st.posts).isEmpty with
      | true => simp [publishContent, hb, hv]
      | false =>
        cases hl : (login auth settings).result with
        | error e => simp [publishContent, hb, hv, hl]
        | ok u =>
          cases u
          by_cases hone : (validPosts st.posts).length = 1
          · obtain ⟨a, ha⟩ := List.length_eq_one.mp hone
            cases hsub : env.submit 0 with
            | ok r =>
              simp [publishContent, hb, hv, hl, hone, hsub, createPost, ha]
            | error e =>
              simp [publishContent, hb, hv, hl, hone, hsub, createPost, ha]
          · have hfront := createThread_texts_front env (validPosts st.posts)
            cases hpr : (createThread env (validPosts st.posts)).2 <;>
              simp [publishContent, hb, hv, hl, hone, hpr] <;>
              simpa [hpr] using hfront

theorem publishContent_filters_blanks_witness :
    ("b" ∈ validPosts ["", "b", " "]) ∧ jsTrim "b" ≠ "" := by
  have h := publishContent_filters_blanks
  refine ⟨h.2.2.1 ["", "b", " "] "b" (by simp) (by decide), ?_⟩
  exact h.2.1 ["", "b", " "] "b" (h.2.2.1 ["", "b", " "] "b" (by simp) (by decide))

lemma eraseIdx_ne_nil_of_two_le :
    ∀ (l : List String) (i : Nat), 2 ≤ l.length → l.eraseIdx i ≠ []
  | a :: t, 0, h => by
    simp only [List.eraseIdx]
    exact List.ne_nil_of_length_pos (by simp at h; omega)
  | a :: t, i + 1, _ => by
    simp only [List.eraseIdx]
    exact List.cons_ne_nil a _

lemma publishContent_state_posts (env : Env) (auth : Except String Unit)
    (settings : Settings) (st : TabState) :
    ((publishContent env auth settings st).published = some (Except.ok ()) →
      (publishContent env auth settings st).state.posts = [""]) ∧
    ((publishContent env auth settings st).published ≠ some (Except.ok ()) →
      (publishContent env auth settings st).state.posts = st.posts) := by
  cases hb : st.isPosting with
  | true => simp [publishContent, hb]
  | false =>
    cases hv : (validPosts st.posts).isEmpty with
    | true => simp [publishContent, hb, hv]
    | false =>
      cases hl : (login auth settings).result with
      | error e => simp [publishContent, hb, hv, hl]
      | ok u =>
        cases u
        by_cases hone : (validPosts st.posts).length = 1
        · obtain ⟨a, ha⟩ := List.length_eq_one.mp hone
          cases hsub : env.submit 0 <;>
            simp [publishContent, hb, hv, hl, hone, ha, createPost, hsub]
        · cases hpr : (createThread env (validPosts st.posts)).2 <;>
            simp [publishContent, hb, hv, hl, hone, hpr]

/-- C10. The editor's segment list is always non-empty: it starts as one
empty segment, `addPost` only appends an empty segment, `removePost` is a
no-op when exactly one segment remains, and `publishContent` resets the list
to a single empty segment exactly when publishing succeeded, leaving it
unchanged on every other path (guards and failures); consequently every
reachable segment list is non-empty. -/
theorem tab_posts_nonempty :
    initialPosts = [""] ∧
    (∀ p : List String, addPost p = p ++ [""]) ∧
    (∀ (p : List String) (i : Nat), p.length = 1 → removePost p i = p) ∧
    (∀ (env : Env) (auth : Except String Unit) (settings : Settings)
      (st : TabState),
      ((publishContent env auth settings st).published = some (Except.ok ()) →
        (publishContent env auth settings st).state.posts = [""]) ∧
      ((publishContent env auth settings st).published ≠ some (Except.ok ()) →
        (publishContent env auth settings st).state.posts = st.posts)) ∧
    (∀ p, ReachablePosts p → p ≠ []) := by
  refine ⟨rfl, fun p => rfl, fun p i h => by simp [removePost, h],
    publishContent_state_posts, ?_⟩
  intro p h
  induction h with
  | init => simp [initialPosts]
  | add _ ih => simp [addPost]
  | remove i _ ih =>
    rw [removePost]
    split
    · exact ih
    · refine eraseIdx_ne_nil_of_two_le _ i ?_
      have := List.length_pos.mpr ih
      omega
  | change i v _ ih =>
    rw [handlePostChange, Ne, ← List.length_eq_zero, List.length_set,
      List.length_eq_zero]
    exact ih
  | @publish q env auth settings b _ ih =>
    by_cases hp : (publishContent env auth settings ⟨q, b⟩).published =
        some (Except.ok ())
    · rw [(publishContent_state_posts env auth settings ⟨q, b⟩).1 hp]
      simp
    · rw [(publishContent_state_posts env auth settings ⟨q, b⟩).2 hp]
      exact ih

theorem tab_posts_nonempty_witness :
    initialPosts ≠ [] ∧ removePost [""] 0 = [""] :=
  ⟨tab_posts_nonempty.2.2.2.2 initialPosts ReachablePosts.init,
   tab_posts_nonempty.2.2.1 [""] 0 rfl⟩

end Wordcloud
